import Mathlib

/-!
Verification development for the face-forge-identity-hub repository.

The embedded program logic comes from `src/src/components/LiveRecognition.tsx`:
the gallery loader `loadRegisteredFaces` (lines 81-98), the per-frame matching
and statistics code `processFrame` (lines 188-302), the recognition scheduler
`toggleRecognition` (lines 305-325), and the history buffer (lines 285-288).
Machine floats of the source are modelled as rationals (`ℚ`); the mocked
`Math.random() * 0.8` distance draw of the source (line 223) is modelled by an
explicit distance assignment passed as a parameter, so each theorem
quantifies over the values the draws could take. The one real-valued
definition, `distance`, is modelled from the spec because the deterministic
comparator it describes is absent from the source (the source comment at
lines 221-222 defers it to a real implementation).
-/

namespace FaceForge

/-- A row of the `face_registrations` table (LiveRecognition.tsx lines 15-20,
supabase migration in the repository): `created_at` is modelled as a natural
number since only its ordering is used. -/
structure FaceRegistration where
  id : String
  name : String
  face_encoding : String
  created_at : Nat
deriving DecidableEq

/-- Insert a registration into a list kept in descending `created_at` order,
modelling the descending order-by-created_at clause of
`loadRegisteredFaces` (line 86). -/
def insertByCreatedAtDesc (r : FaceRegistration) : List FaceRegistration → List FaceRegistration
  | [] => [r]
  | x :: xs => if x.created_at < r.created_at then r :: x :: xs else x :: insertByCreatedAtDesc r xs

/-- `loadRegisteredFaces` (lines 81-98): the component state receives the
stored rows sorted by `created_at` descending (newest first). -/
def loadRegisteredFaces : List FaceRegistration → List FaceRegistration
  | [] => []
  | x :: xs => insertByCreatedAtDesc x (loadRegisteredFaces xs)

/-- A detection bounding box (lines 237-242). -/
structure Box where
  x : ℚ
  y : ℚ
  width : ℚ
  height : ℚ
deriving DecidableEq

/-- One detected face of a frame. The face descriptor itself is never read by
the comparison code (the distance is the mocked draw of line 223), so only the
box is carried. -/
structure Detection where
  box : Box
deriving DecidableEq

/-- One iteration of the inner loop of `processFrame` (lines 219-231): a
candidate registration `r` with distance `df r` replaces the current best
match exactly when `df r < 0.6` and (there is no best match yet, or
`df r` is strictly smaller than the best distance). -/
def step (df : FaceRegistration → ℚ) (best : Option (FaceRegistration × ℚ))
    (r : FaceRegistration) : Option (FaceRegistration × ℚ) :=
  match best with
  | none => if df r < 3/5 then some (r, df r) else none
  | some b => if df r < 3/5 ∧ df r < b.2 then some (r, df r) else some b

/-- The `bestMatch` computation of `processFrame` (lines 217-231): a left fold
of `step` over the loaded registrations, starting from `null`. -/
def findBestMatch (df : FaceRegistration → ℚ) (faces : List FaceRegistration) :
    Option (FaceRegistration × ℚ) :=
  faces.foldl (step df) none

/-- The confidence formula of line 236 for a matched result:
`(1 - bestMatch.distance) * 100`, with no clamping. -/
def confidence (d : ℚ) : ℚ := (1 - d) * 100

/-- One `RecognitionResult` (lines 233-244). The random display id of line 234
is omitted (it is a nondeterministic UI key, never read by the logic). -/
structure RecognitionResult where
  name : String
  confidence : ℚ
  box : Box
  timestamp : Nat
deriving DecidableEq

/-- Build the `RecognitionResult` for one detection (lines 233-244): the
matched name with confidence `(1 - distance) * 100`, or `"Unknown Person"`
with confidence `0` when no registration is within `0.6`. -/
def mkResult (dist : Detection → FaceRegistration → ℚ) (faces : List FaceRegistration)
    (now : Nat) (det : Detection) : RecognitionResult :=
  match findBestMatch (dist det) faces with
  | some b => { name := b.1.name, confidence := confidence b.2, box := det.box, timestamp := now }
  | none => { name := "Unknown Person", confidence := 0, box := det.box, timestamp := now }

/-- The `Statistics` state of the component (lines 27-32, 50-55). -/
structure Statistics where
  detectedFaces : Nat
  recognitionAccuracy : ℚ
  frameRate : ℚ
  totalRecognitions : Nat
deriving DecidableEq

/-- The component state touched by `processFrame`: the frame counter and
window start (`frameCountRef`, `lastFrameTimeRef`, lines 40-41), the
statistics, the current results, and the history buffer. -/
structure ComponentState where
  frameCount : Nat
  lastFrameTime : Nat
  statistics : Statistics
  recognitionResults : List RecognitionResult
  recognitionHistory : List RecognitionResult
deriving DecidableEq

/-- Number of results whose name is not `"Unknown Person"`
(the filter on the name differing from Unknown Person, lines 272, 278). -/
def matchedCount (results : List RecognitionResult) : Nat :=
  (results.filter (fun r => r.name != "Unknown Person")).length

/-- `processFrame` (lines 188-302) as a state transformer. Empty detections
(lines 207-211): results cleared, `detectedFaces` zeroed, early return — the
frame counter, frame-rate window, accuracy and history are untouched.
Otherwise the per-detection results are built, the frame counter is bumped,
and if at least 1000 ms elapsed since the window start the statistics are
recomputed from the current frame and the window is reset (lines 264-283);
finally the newest results are prepended to the history, truncated to 100
entries (lines 285-288). -/
def processFrame (dist : Detection → FaceRegistration → ℚ) (faces : List FaceRegistration)
    (detections : List Detection) (now : Nat) (s : ComponentState) : ComponentState :=
  if detections.isEmpty then
    { s with recognitionResults := [],
             statistics := { s.statistics with detectedFaces := 0 } }
  else
    let results := detections.map (mkResult dist faces now)
    let timeDiff := now - s.lastFrameTime
    if 1000 ≤ timeDiff then
      { frameCount := 0,
        lastFrameTime := now,
        statistics :=
          { detectedFaces := results.length,
            recognitionAccuracy :=
              if 0 < results.length then
                (matchedCount results : ℚ) / (results.length : ℚ) * 100
              else 0,
            frameRate := ((s.frameCount + 1 : Nat) : ℚ) * 1000 / (timeDiff : ℚ),
            totalRecognitions := s.statistics.totalRecognitions + matchedCount results },
        recognitionResults := results,
        recognitionHistory := (results ++ s.recognitionHistory).take 100 }
    else
      { frameCount := s.frameCount + 1,
        lastFrameTime := s.lastFrameTime,
        statistics := s.statistics,
        recognitionResults := results,
        recognitionHistory := (results ++ s.recognitionHistory).take 100 }

/-- Modelled from the spec: the deterministic embedding comparator of §4.1 is
absent from the source — `processFrame` substitutes the `Math.random() * 0.8`
mock at line 223, with the comment at lines 221-222 deferring the real
comparison. Following §4.1 this models Euclidean distance over embeddings,
returning `none` on a dimension mismatch (the `DimensionMismatch` failure). -/
noncomputable def distance (a b : List ℝ) : Option ℝ :=
  if a.length = b.length then
    some (Real.sqrt ((List.zipWith (fun x y => (x - y) ^ 2) a b).sum))
  else none

/-- C1: for every pair of embeddings `a` and `b`, the distance function is
deterministic (it is a pure function of its two arguments, so two calls on the
same inputs return the same value by construction), `distance a a` is zero,
and `distance a b = distance b a`. -/
theorem c1_distance_self_zero_and_symmetric (a b : List ℝ) :
    distance a a = some 0 ∧ distance a b = distance b a := by
  constructor
  · unfold distance
    rw [if_pos rfl]
    have h1 : (List.zipWith (fun x y : ℝ => (x - y) ^ 2) a a).sum = 0 := by
      rw [List.zipWith_same]
      refine List.sum_eq_zero ?_
      intro x hx
      obtain ⟨y, _, rfl⟩ := List.mem_map.mp hx
      ring
    rw [h1, Real.sqrt_zero]
  · unfold distance
    by_cases h : a.length = b.length
    · rw [if_pos h, if_pos h.symm]
      have h2 : List.zipWith (fun x y : ℝ => (x - y) ^ 2) b a
          = List.zipWith (fun x y : ℝ => (x - y) ^ 2) a b := by
        rw [List.zipWith_comm]
        congr 1
        funext x y
        ring
      rw [h2]
    · rw [if_neg h, if_neg (fun hh => h hh.symm)]

/-- If the candidate distance is under the threshold, one `step` always leaves
a best match whose distance is at most that of the candidate. -/
theorem step_le (df : FaceRegistration → ℚ) (acc : Option (FaceRegistration × ℚ))
    (x : FaceRegistration) (hx : df x < 3/5) :
    ∃ b, step df acc x = some b ∧ b.2 ≤ df x := by
  cases acc with
  | none => exact ⟨(x, df x), by simp [step, hx], le_refl _⟩
  | some a =>
    by_cases h : df x < a.2
    · exact ⟨(x, df x), by simp [step, hx, h], le_refl _⟩
    · refine ⟨a, ?_, le_of_not_lt h⟩
      have : ¬ (df x < 3/5 ∧ df x < a.2) := fun hh => h hh.2
      simp [step, this]

/-- Folding `step` from an existing best match never loses it: the result is
some match whose distance is at most that of the accumulator. -/
theorem foldl_step_some (df : FaceRegistration → ℚ) :
    ∀ (rs : List FaceRegistration) (b : FaceRegistration × ℚ),
    ∃ c, rs.foldl (step df) (some b) = some c ∧ c.2 ≤ b.2 := by
  intro rs
  induction rs with
  | nil => exact fun b => ⟨b, rfl, le_refl _⟩
  | cons r rs ih =>
    intro b
    rw [List.foldl_cons]
    by_cases h : df r < 3/5 ∧ df r < b.2
    · have hs : step df (some b) r = some (r, df r) := by simp [step, h]
      rw [hs]
      obtain ⟨c, hc, hle⟩ := ih (r, df r)
      exact ⟨c, hc, le_trans hle (le_of_lt h.2)⟩
    · have hs : step df (some b) r = some b := by simp [step, h]
      rw [hs]
      exact ih b

/-- Minimality invariant of the fold: any under-threshold registration in the
scanned list bounds the final best distance from above. -/
theorem foldl_step_le (df : FaceRegistration → ℚ) :
    ∀ (rs : List FaceRegistration) (acc : Option (FaceRegistration × ℚ))
      (r : FaceRegistration), r ∈ rs → df r < 3/5 →
    ∃ c, rs.foldl (step df) acc = some c ∧ c.2 ≤ df r := by
  intro rs
  induction rs with
  | nil => intro acc r hr; cases hr
  | cons x rs ih =>
    intro acc r hr hlt
    rw [List.foldl_cons]
    rcases List.mem_cons.mp hr with rfl | hmem
    · obtain ⟨b, hb, hble⟩ := step_le df acc r hlt
      rw [hb]
      obtain ⟨c, hc, hcle⟩ := foldl_step_some df rs b
      exact ⟨c, hc, le_trans hcle hble⟩
    · exact ih (step df acc x) r hmem hlt

/-- Soundness invariant of the fold: a final best match either is the
accumulator untouched or comes from the scanned list, carries its own
distance, and is under the threshold. -/
theorem foldl_step_sound (df : FaceRegistration → ℚ) :
    ∀ (rs : List FaceRegistration) (acc : Option (FaceRegistration × ℚ))
      (c : FaceRegistration × ℚ), rs.foldl (step df) acc = some c →
    acc = some c ∨ (c.1 ∈ rs ∧ c.2 = df c.1 ∧ c.2 < 3/5) := by
  intro rs
  induction rs with
  | nil => intro acc c h; exact Or.inl h
  | cons x rs ih =>
    intro acc c h
    rw [List.foldl_cons] at h
    rcases ih (step df acc x) c h with hstep | ⟨hmem, heq, hlt⟩
    · cases acc with
      | none =>
        by_cases hx : df x < 3/5
        · have : step df none x = some (x, df x) := by simp [step, hx]
          rw [this] at hstep
          obtain rfl := (Option.some_inj.mp hstep).symm
          exact Or.inr ⟨List.mem_cons_self x rs, rfl, hx⟩
        · have : step df none x = none := by simp [step, hx]
          rw [this] at hstep
          cases hstep
      | some a =>
        by_cases hx : df x < 3/5 ∧ df x < a.2
        · have : step df (some a) x = some (x, df x) := by simp [step, hx]
          rw [this] at hstep
          obtain rfl := (Option.some_inj.mp hstep).symm
          exact Or.inr ⟨List.mem_cons_self x rs, rfl, hx.1⟩
        · have : step df (some a) x = some a := by simp [step, hx]
          rw [this] at hstep
          exact Or.inl hstep
    · exact Or.inr ⟨List.mem_cons_of_mem x hmem, heq, hlt⟩

/-- When no scanned registration is under the threshold, the fold started from
`null` ends at `null`. -/
theorem foldl_step_none (df : FaceRegistration → ℚ) :
    ∀ (rs : List FaceRegistration), (∀ r ∈ rs, ¬ df r < 3/5) →
    rs.foldl (step df) none = none := by
  intro rs
  induction rs with
  | nil => intro _; rfl
  | cons x rs ih =>
    intro h
    rw [List.foldl_cons]
    have hx : ¬ df x < 3/5 := h x (List.mem_cons_self x rs)
    have hs : step df none x = none := by simp [step, hx]
    rw [hs]
    exact ih (fun r hr => h r (List.mem_cons_of_mem x hr))

/-- `bestMatch` stays `null` exactly when no registration is within `0.6`. -/
theorem findBestMatch_none_iff (df : FaceRegistration → ℚ) (faces : List FaceRegistration) :
    findBestMatch df faces = none ↔ ∀ r ∈ faces, ¬ df r < 3/5 := by
  constructor
  · intro hnone r hr hlt
    obtain ⟨c, hc, _⟩ := foldl_step_le df faces none r hr hlt
    rw [findBestMatch] at hnone
    rw [hnone] at hc
    cases hc
  · intro h
    exact foldl_step_none df faces h

/-- C2: in a frame-matching pass, the best match for a detection is `none` iff
no loaded registration has distance to that detection below the threshold
`3/5` (the literal `0.6` of line 225 of `processFrame`, matching
`is_match(d) = d < 0.6`). -/
theorem c2_matched_none_iff_no_distance_below (df : FaceRegistration → ℚ)
    (faces : List FaceRegistration) :
    findBestMatch df faces = none ↔ ∀ r ∈ faces, ¬ df r < 3/5 :=
  findBestMatch_none_iff df faces

/-- A sample registration row used for concrete evaluations. -/
def regAlice : FaceRegistration := ⟨"id1", "Alice", "encA", 1⟩

/-- A second sample registration row, enrolled later than `regAlice`. -/
def regBob : FaceRegistration := ⟨"id2", "Bob", "encB", 2⟩

/-- C2, counterexample: the threshold is NOT a configuration value — the
comparison of line 225 uses the hardcoded literal `0.6`. With a configured
threshold of `9/10`, a gallery whose sole registration is at distance `7/10`
(below that configured threshold) still yields no match, so the claimed
iff fails for that configuration. -/
theorem c2_counterexample :
    ¬ ∀ (t : ℚ) (df : FaceRegistration → ℚ) (faces : List FaceRegistration),
        (findBestMatch df faces = none ↔ ∀ r ∈ faces, ¬ df r < t) := by
  intro h
  have hnone : findBestMatch (fun _ => (7:ℚ)/10) [regAlice] = none := by
    norm_num [findBestMatch, step]
  have h2 := (h (9/10) (fun _ => 7/10) [regAlice]).mp hnone
  exact h2 regAlice (List.mem_cons_self _ _) (by norm_num)

/-- C4 (amended): the nearest scan of `processFrame` over the loaded gallery
returns, among the registrations at distance strictly below `0.6`, one
attaining the minimum distance, and `none` exactly when there is no such
registration (in particular on the empty gallery); it is deterministic given
the distance assignment. Ties, however, resolve to the entry occurring first
in the loaded list — and `loadRegisteredFaces` orders `created_at`
descending, so two identities at equal distance resolve to the LATEST
enrolled one, as the final conjunct shows for a two-identity gallery. -/
theorem c4_nearest_amended (df : FaceRegistration → ℚ) (faces : List FaceRegistration)
    (r1 r2 : FaceRegistration) (hc : r1.created_at < r2.created_at)
    (heq : df r1 = df r2) (hlt : df r2 < 3/5) :
    findBestMatch df [] = none ∧
    (∀ c, findBestMatch df faces = some c →
        c.1 ∈ faces ∧ c.2 = df c.1 ∧ c.2 < 3/5 ∧ ∀ r ∈ faces, df r < 3/5 → c.2 ≤ df r) ∧
    (findBestMatch df faces = none ↔ ∀ r ∈ faces, ¬ df r < 3/5) ∧
    loadRegisteredFaces [r1, r2] = [r2, r1] ∧
    findBestMatch df (loadRegisteredFaces [r1, r2]) = some (r2, df r2) := by
  have hload : loadRegisteredFaces [r1, r2] = [r2, r1] := by
    have hnc : ¬ r2.created_at < r1.created_at := Nat.lt_asymm hc
    simp [loadRegisteredFaces, insertByCreatedAtDesc, hnc]
  refine ⟨rfl, ?_, findBestMatch_none_iff df faces, hload, ?_⟩
  · intro c hcfound
    have hsound := foldl_step_sound df faces none c hcfound
    rcases hsound with hnone | ⟨hmem, hceq, hclt⟩
    · cases hnone
    · refine ⟨hmem, hceq, hclt, ?_⟩
      intro r hr hrlt
      obtain ⟨c', hc', hle⟩ := foldl_step_le df faces none r hr hrlt
      rw [findBestMatch] at hcfound
      rw [hcfound] at hc'
      obtain rfl := Option.some_inj.mp hc'
      exact hle
  · rw [hload]
    have hnot : ¬ (df r1 < 3/5 ∧ df r1 < df r2) := by
      rw [heq]
      exact fun hh => lt_irrefl _ hh.2
    simp [findBestMatch, step, hlt, hnot]

/-- C4, witness: a two-identity gallery at equal distance `1/5`, enrolled at
times 1 and 2, resolves to the later-enrolled `regBob`. -/
theorem c4_witness :
    findBestMatch (fun _ => (1:ℚ)/5) (loadRegisteredFaces [regAlice, regBob])
      = some (regBob, 1/5) :=
  (c4_nearest_amended (fun _ => (1:ℚ)/5) [regAlice] regAlice regBob
    (by decide) rfl (by norm_num)).2.2.2.2

/-- C4, counterexample: `regAlice` is enrolled earlier than `regBob`; both are
at distance `1/5` from the probe; the loaded gallery is `[regBob, regAlice]`
(newest first), and the scan resolves the tie to `regBob` — the latest
enrolled — not to the earliest as the claim states. -/
theorem c4_counterexample :
    loadRegisteredFaces [regAlice, regBob] = [regBob, regAlice] ∧
    findBestMatch (fun _ => (1:ℚ)/5) [regBob, regAlice] = some (regBob, 1/5) ∧
    regAlice.created_at < regBob.created_at ∧ regBob ≠ regAlice := by
  refine ⟨by simp [loadRegisteredFaces, insertByCreatedAtDesc, regAlice, regBob], ?_, by decide, by decide⟩
  have hnot : ¬ ((1:ℚ)/5 < 1/5) := lt_irrefl _
  norm_num [findBestMatch, step]

/-- C3 (amended): the confidence the source reports for a matched result is
`(1 - distance) * 100` with no clamping; it is strictly decreasing in the
distance, and on the distances at which the source applies it (non-negative
mock draws below the `0.6` match threshold) it lies in `(40, 100] ⊆ [0, 100]`. -/
theorem c3_confidence_amended (d1 d2 d : ℚ) (h12 : d1 < d2) (h0 : 0 ≤ d) (hlt : d < 3/5) :
    confidence d2 < confidence d1 ∧ 40 < confidence d ∧ confidence d ≤ 100 := by
  unfold confidence
  refine ⟨by linarith, by linarith, by linarith⟩

/-- C3, witness: at distances 0, 1 and 1/2 the amended properties hold
concretely. -/
theorem c3_witness :
    confidence 1 < confidence 0 ∧ 40 < confidence (1/2) ∧ confidence (1/2) ≤ 100 :=
  c3_confidence_amended 0 1 (1/2) (by norm_num) (by norm_num) (by norm_num)

/-- The confidence formula the claim states, written from the words of the
spec (§4.1): `clamp((1 - distance/distance_max) * 100, 0, 100)`. -/
def specConfidence (dmax d : ℚ) : ℚ := max 0 (min 100 ((1 - d / dmax) * 100))

/-- C3, counterexample: there is no fixed `distance_max` for which the
confidence formula of the source equals the claimed clamped formula at every
distance: the formula of the source is `-100` at distance `2`, while the clamped
formula is never negative. -/
theorem c3_counterexample :
    ¬ ∃ dmax : ℚ, ∀ d : ℚ, confidence d = specConfidence dmax d := by
  rintro ⟨m, h⟩
  have h2 := h 2
  have hge : (0:ℚ) ≤ specConfidence m 2 := le_max_left 0 _
  rw [← h2] at hge
  have hval : confidence 2 = -100 := by unfold confidence; norm_num
  rw [hval] at hge
  linarith

/-- A sample detection used for concrete evaluations. -/
def det0 : Detection := ⟨⟨0, 0, 0, 0⟩⟩

/-- C10: for every detection of a frame, if no registration is within the
`0.6` threshold the result is named `"Unknown Person"` with confidence
exactly `0`; if a best match exists its distance is the distance of its own
registration, strictly below `0.6`, and the reported confidence
`(1 - distance) * 100` is strictly above `40` and at most `100` (the mock
draws of line 223 are `Math.random() * 0.8`, hence non-negative, which the
hypothesis records). -/
theorem c10_unknown_or_bounded_confidence (dist : Detection → FaceRegistration → ℚ)
    (faces : List FaceRegistration) (det : Detection) (now : Nat)
    (hnn : ∀ r ∈ faces, 0 ≤ dist det r) :
    (findBestMatch (dist det) faces = none →
       (mkResult dist faces now det).name = "Unknown Person" ∧
       (mkResult dist faces now det).confidence = 0) ∧
    (∀ b, findBestMatch (dist det) faces = some b →
       b.2 = dist det b.1 ∧ b.2 < 3/5 ∧
       40 < (mkResult dist faces now det).confidence ∧
       (mkResult dist faces now det).confidence ≤ 100) := by
  constructor
  · intro hnone
    simp [mkResult, hnone]
  · intro b hsome
    have hs := foldl_step_sound (dist det) faces none b hsome
    rcases hs with hbad | ⟨hmem, heq, hlt⟩
    · cases hbad
    · have hb0 : 0 ≤ b.2 := heq ▸ hnn b.1 hmem
      have hres : (mkResult dist faces now det).confidence = (1 - b.2) * 100 := by
        simp [mkResult, hsome, confidence]
      refine ⟨heq, hlt, ?_, ?_⟩
      · rw [hres]; linarith
      · rw [hres]; linarith

/-- C10, witness: a single registration at distance `1/5` yields confidence
`80`, which is above `40` and at most `100`. -/
theorem c10_witness :
    40 < (mkResult (fun _ _ => (1:ℚ)/5) [regAlice] 0 det0).confidence ∧
    (mkResult (fun _ _ => (1:ℚ)/5) [regAlice] 0 det0).confidence ≤ 100 := by
  have hfound : findBestMatch ((fun _ _ => (1:ℚ)/5) det0) [regAlice] = some (regAlice, 1/5) := by
    norm_num [findBestMatch, step]
  have h := (c10_unknown_or_bounded_confidence (fun _ _ => (1:ℚ)/5) [regAlice] det0 0
      (fun r _ => by norm_num)).2 (regAlice, 1/5) hfound
  exact ⟨h.2.2.1, h.2.2.2⟩

/-- C5 (amended): a frame with an empty detection list is handled without
error (lines 207-211): the current results are cleared and the
`detectedFaces` statistic is set to `0`, but the function returns early — the
frame counter, the frame-rate window, the accuracy, the lifetime counter and
the history are all left untouched, so no frame-rate or match-ratio update
happens for that frame. -/
theorem c5_empty_detections_amended (dist : Detection → FaceRegistration → ℚ)
    (faces : List FaceRegistration) (now : Nat) (s : ComponentState) :
    processFrame dist faces [] now s
      = { s with recognitionResults := [],
                 statistics := { s.statistics with detectedFaces := 0 } } := rfl

/-- A sample component state mid-window: one frame already counted, window
started at time 0, with visibly non-zero prior statistics. -/
def state5 : ComponentState :=
  { frameCount := 1, lastFrameTime := 0,
    statistics := { detectedFaces := 5, recognitionAccuracy := 50,
                    frameRate := 7, totalRecognitions := 3 },
    recognitionResults := [], recognitionHistory := [] }

/-- C5, counterexample: an empty-detection frame at time 2000, a full 2
seconds into the window, leaves `recognitionAccuracy` at its old value `50`
(the claim says the match ratio reports `0`), leaves `frameRate` at `7` and
does not count the frame or reset the window (the claim says the frame rate
is still computed for that frame). -/
theorem c5_counterexample :
    (processFrame (fun _ _ => 0) [] [] 2000 state5).statistics.recognitionAccuracy = 50 ∧
    ¬ (processFrame (fun _ _ => 0) [] [] 2000 state5).statistics.recognitionAccuracy = 0 ∧
    (processFrame (fun _ _ => 0) [] [] 2000 state5).statistics.frameRate = 7 ∧
    (processFrame (fun _ _ => 0) [] [] 2000 state5).frameCount = 1 ∧
    (processFrame (fun _ _ => 0) [] [] 2000 state5).lastFrameTime = 0 := by
  refine ⟨rfl, ?_, rfl, rfl, rfl⟩
  intro h
  rw [show (processFrame (fun _ _ => 0) [] [] 2000 state5).statistics.recognitionAccuracy
      = 50 from rfl] at h
  norm_num at h

/-- The recognition scheduler of `toggleRecognition` (line 323):
`setInterval(processFrame, 500)` fires a tick every 500 ms, and `processFrame`
has no in-flight guard, so every tick starts a detection call. A run records
the completion times of the calls started so far and their count; `lat` is
the detector latency. -/
structure SchedulerRun where
  pending : List Nat
  started : Nat
deriving DecidableEq

/-- One interval tick at time `t` (the `setInterval` callback): a detection
call is started unconditionally, completing at `t + lat`. -/
def tickFire (lat : Nat) (s : SchedulerRun) (t : Nat) : SchedulerRun :=
  { pending := (t + lat) :: s.pending, started := s.started + 1 }

/-- Run the interval over a list of tick times from an idle start. -/
def runTicks (lat : Nat) (ticks : List Nat) : SchedulerRun :=
  ticks.foldl (tickFire lat) { pending := [], started := 0 }

/-- Number of detection calls still in flight at time `t`. -/
def inFlightAt (s : SchedulerRun) (t : Nat) : Nat :=
  (s.pending.filter (fun c => t < c)).length

/-- The tick times of the first `n` intervals at the 500 ms source period. -/
def tickTimes (n : Nat) : List Nat := (List.range n).map (fun k => (k + 1) * 500)

/-- C6 (amended): the interval fires `processFrame` on every tick with no
skip-if-busy rule — over any tick times and any detector latency, the number
of detection calls started equals the number of ticks, never fewer. -/
theorem c6_every_tick_fires_amended (lat : Nat) (ticks : List Nat) :
    (runTicks lat ticks).started = ticks.length := by
  have key : ∀ (ts : List Nat) (s : SchedulerRun),
      (ts.foldl (tickFire lat) s).started = s.started + ts.length := by
    intro ts
    induction ts with
    | nil => intro s; simp
    | cons t ts ih =>
      intro s
      rw [List.foldl_cons, ih]
      simp [tickFire]
      omega
  have h := key ticks { pending := [], started := 0 }
  rw [runTicks, h]
  simp

/-- C6, counterexample: with detector latency 1200 ms (greater than the
500 ms tick period), over `N = 2` ticks the source starts 2 calls — not fewer
than `N` as the claim requires — and at the second tick both calls are in
flight simultaneously, so the previous cycle being outstanding did not skip
the tick. -/
theorem c6_counterexample :
    (runTicks 1200 (tickTimes 2)).started = 2 ∧
    ¬ (runTicks 1200 (tickTimes 2)).started < 2 ∧
    inFlightAt (runTicks 1200 (tickTimes 2)) 1000 = 2 := by
  refine ⟨by decide, by decide, by decide⟩

/-- The session phases of the scheduler state machine of the spec (§4.4). -/
inductive SessionPhase
  | Idle
  | CameraReady
  | Recognizing
deriving DecidableEq

/-- The error the spec assigns to a rejected state transition (§7). The
source surfaces it as the destructive "Camera Required" toast of lines
314-318. -/
inductive RecognitionError
  | preconditionNotMet
deriving DecidableEq

/-- The scheduler-owned component state of `toggleRecognition`:
`isCameraActive`, `isRecognitionActive` (lines 43-44) and whether the
interval handle of line 39 is set. -/
structure RecSession where
  isCameraActive : Bool
  isRecognitionActive : Bool
  intervalActive : Bool
deriving DecidableEq

/-- The session phase encoded by the component flags: recognizing when
recognition is active, camera-ready when only the camera is, idle otherwise. -/
def sessionPhase (s : RecSession) : SessionPhase :=
  if s.isRecognitionActive then .Recognizing
  else if s.isCameraActive then .CameraReady
  else .Idle

/-- `toggleRecognition` (lines 305-325): when recognition is active, clear
the interval and deactivate (the stop path); otherwise, if the camera is not
active, reject with the "Camera Required" toast and return with no state
change; otherwise activate recognition and set the interval. -/
def toggleRecognition (s : RecSession) : RecSession × Option RecognitionError :=
  if s.isRecognitionActive then
    ({ s with isRecognitionActive := false, intervalActive := false }, none)
  else if !s.isCameraActive then
    (s, some RecognitionError.preconditionNotMet)
  else
    ({ s with isRecognitionActive := true, intervalActive := true }, none)

/-- C7: attempting to start recognition (a toggle while recognition is
inactive) when the session is not in the `CameraReady` phase is rejected
synchronously with `PreconditionNotMet`, and the returned state is exactly
the state before the call — camera flag, recognition flag and interval
handle all unchanged. -/
theorem c7_start_rejected_no_state_change (s : RecSession)
    (hact : s.isRecognitionActive = false)
    (hphase : sessionPhase s ≠ SessionPhase.CameraReady) :
    toggleRecognition s = (s, some RecognitionError.preconditionNotMet) := by
  have hcam : s.isCameraActive = false := by
    cases hc : s.isCameraActive with
    | false => rfl
    | true =>
      exfalso
      apply hphase
      simp [sessionPhase, hact, hc]
  simp [toggleRecognition, hact, hcam]

/-- C7, witness: starting recognition in the idle session (camera off) is
rejected and the session is returned unchanged. -/
theorem c7_witness :
    toggleRecognition ⟨false, false, false⟩
      = (⟨false, false, false⟩, some RecognitionError.preconditionNotMet) :=
  c7_start_rejected_no_state_change ⟨false, false, false⟩ rfl (by decide)

/-- C8: after every frame-result delivery (every processed frame with a
non-empty detection list), the history is exactly the newest-first
concatenation of the results of this frame and the prior history, truncated to
100 entries — so the most recent `min 100 total` results, newest first, are
always retained. -/
theorem c8_history_retention (dist : Detection → FaceRegistration → ℚ)
    (faces : List FaceRegistration) (detections : List Detection) (now : Nat)
    (s : ComponentState) (h : detections ≠ []) :
    (processFrame dist faces detections now s).recognitionHistory
      = (detections.map (mkResult dist faces now) ++ s.recognitionHistory).take 100 ∧
    (processFrame dist faces detections now s).recognitionHistory.length
      = min 100 (detections.length + s.recognitionHistory.length) := by
  have hne : detections.isEmpty = false := by
    cases detections with
    | nil => exact absurd rfl h
    | cons a l => rfl
  constructor
  · rw [processFrame, hne]
    simp only [Bool.false_eq_true, if_false]
    split <;> rfl
  · rw [processFrame, hne]
    simp only [Bool.false_eq_true, if_false]
    split <;> simp [List.length_take]

/-- C8, witness: one frame with a single detection appends its result to an
empty history, which then holds exactly that one newest result. -/
theorem c8_witness :
    (processFrame (fun _ _ => (1:ℚ)/5) [regAlice] [det0] 0 state5).recognitionHistory
      = ([det0].map (mkResult (fun _ _ => (1:ℚ)/5) [regAlice] 0)
          ++ state5.recognitionHistory).take 100 ∧
    (processFrame (fun _ _ => (1:ℚ)/5) [regAlice] [det0] 0 state5).recognitionHistory.length
      = min 100 ([det0].length + state5.recognitionHistory.length) :=
  c8_history_retention (fun _ _ => (1:ℚ)/5) [regAlice] [det0] 0 state5
    (List.cons_ne_nil det0 [])

/-- C9 (amended): at a statistics flush — which only a frame with detections
can trigger, once at least 1000 ms elapsed since the window start —
`frameRate` is the frame count of the window (including this frame) times 1000
divided by the elapsed milliseconds (i.e. frames per elapsed second);
`recognitionAccuracy` is computed from the results of THIS frame only (matched
over detected of the flush frame, times 100), not from window totals, with
the `0`-on-no-detections guard unreachable here; the matched count of this frame
— not a window total — is added to the lifetime counter, which therefore
never decreases; and the window is reset (`frameCount` to 0, window start to
`now`). -/
theorem c9_flush_amended (dist : Detection → FaceRegistration → ℚ)
    (faces : List FaceRegistration) (detections : List Detection) (now : Nat)
    (s : ComponentState) (hne : detections ≠ [])
    (hdue : 1000 ≤ now - s.lastFrameTime) :
    (processFrame dist faces detections now s).statistics
      = { detectedFaces := (detections.map (mkResult dist faces now)).length,
          recognitionAccuracy :=
            (matchedCount (detections.map (mkResult dist faces now)) : ℚ)
              / ((detections.map (mkResult dist faces now)).length : ℚ) * 100,
          frameRate := ((s.frameCount + 1 : Nat) : ℚ) * 1000 / ((now - s.lastFrameTime : Nat) : ℚ),
          totalRecognitions := s.statistics.totalRecognitions
              + matchedCount (detections.map (mkResult dist faces now)) } ∧
    (processFrame dist faces detections now s).frameCount = 0 ∧
    (processFrame dist faces detections now s).lastFrameTime = now ∧
    s.statistics.totalRecognitions
      ≤ (processFrame dist faces detections now s).statistics.totalRecognitions := by
  have hempty : detections.isEmpty = false := by
    cases detections with
    | nil => exact absurd rfl hne
    | cons a l => rfl
  have hpos : 0 < (detections.map (mkResult dist faces now)).length := by
    cases detections with
    | nil => exact absurd rfl hne
    | cons a l => simp
  rw [processFrame, hempty]
  simp only [Bool.false_eq_true, if_false, if_pos hdue, if_pos hpos]
  exact ⟨trivial, trivial, trivial, Nat.le_add_right _ _⟩

/-- C9, witness: from a fresh state, a frame with one matched detection at
time 1100 flushes: the frame counter resets to 0, the window start moves to
1100, and the lifetime counter does not decrease. -/
theorem c9_witness :
    (processFrame (fun _ _ => (1:ℚ)/5) [regAlice] [det0] 1100 state5).frameCount = 0 ∧
    (processFrame (fun _ _ => (1:ℚ)/5) [regAlice] [det0] 1100 state5).lastFrameTime = 1100 ∧
    state5.statistics.totalRecognitions
      ≤ (processFrame (fun _ _ => (1:ℚ)/5) [regAlice] [det0] 1100 state5).statistics.totalRecognitions := by
  have h := c9_flush_amended (fun _ _ => (1:ℚ)/5) [regAlice] [det0] 1100 state5
    (List.cons_ne_nil det0 []) (by decide)
  exact ⟨h.2.1, h.2.2.1, h.2.2.2⟩

/-- The fresh component state at mount: counters zero, empty lists. -/
def state0 : ComponentState :=
  { frameCount := 0, lastFrameTime := 0,
    statistics := { detectedFaces := 0, recognitionAccuracy := 0,
                    frameRate := 0, totalRecognitions := 0 },
    recognitionResults := [], recognitionHistory := [] }

/-- C9, counterexample: from the fresh state, a window holding a first frame
with two unmatched detections (distance `7/10`, above threshold) followed by
a flushing frame with one matched detection (distance `1/5`): the window
totals are 1 matched out of 3 detected, so the claimed
`total_matched / total_detected` is `100/3` percent, but the source reports
`recognitionAccuracy = 100`, computed from the flush frame alone. -/
theorem c9_counterexample :
    matchedCount ((processFrame (fun _ _ => (7:ℚ)/10) [regAlice] [det0, det0] 100 state0).recognitionResults) = 0 ∧
    (processFrame (fun _ _ => (7:ℚ)/10) [regAlice] [det0, det0] 100 state0).recognitionResults.length = 2 ∧
    (processFrame (fun _ _ => (1:ℚ)/5) [regAlice] [det0] 1100
        (processFrame (fun _ _ => (7:ℚ)/10) [regAlice] [det0, det0] 100 state0)).statistics.recognitionAccuracy
      = 100 ∧
    ¬ ((100:ℚ) = 100/3) := by
  have hmiss : findBestMatch ((fun _ _ => (7:ℚ)/10) det0) [regAlice] = none := by
    norm_num [findBestMatch, step]
  have hhit : findBestMatch ((fun _ _ => (1:ℚ)/5) det0) [regAlice] = some (regAlice, 1/5) := by
    norm_num [findBestMatch, step]
  refine ⟨?_, ?_, ?_, by norm_num⟩
  · norm_num [processFrame, state0, mkResult, hmiss, matchedCount]
  · norm_num [processFrame, state0, mkResult, hmiss]
  · have hname : regAlice.name = "Alice" := rfl
    have hbne : ("Alice" != "Unknown Person") = true := rfl
    norm_num [processFrame, state0, mkResult, hmiss, hhit, matchedCount, confidence, hname,
      List.filter_cons, hbne]

end FaceForge
